import Mathlib

/-
Verification of the csv-image batch converter.

The development shallowly embeds the three Go variants found in the
repository:
  * `Seq` — the sequential variant of csv-image.go (prints as it goes,
    os.Mkdir, log.Fatalln on output errors, and a dump-path Sprintf that
    is missing its first argument);
  * `Conc` — the concurrent variant of csv-image.go (accumulates console
    output per record, os.MkdirAll, three-way format switch, no fatal
    exits inside record processing);
  * `Legacy` — the older csv-jpeg variant (always encodes JPEG, aborts
    the run on any per-record error).
File-system effects are modelled by an explicit `FS` state; the standard
library image codecs are abstracted as a `Codec` parameter whose results
drive the same branches the Go code takes.
-/

namespace CsvImage

/-- Go fmt.Sprintf restricted to the %s verb: each %s consumes the next
argument, and a %s with no argument left renders as Go's
missing-argument marker, exactly as the fmt package documents. -/
def goFmt : List Char → List String → String
  | [], _ => ""
  | '%' :: 's' :: rest, arg :: args => arg ++ goFmt rest args
  | '%' :: 's' :: rest, [] => "%!s(MISSING)" ++ goFmt rest []
  | c :: rest, args => String.mk [c] ++ goFmt rest args

/-- Go fmt.Sprintf on a format string using only %s verbs. -/
def sprintf (f : String) (args : List String) : String := goFmt f.data args

/-- File-system state: existing directories, files with their contents, and
the set of paths on which OpenFile faults (permission-style failures that
do not depend on the directory structure). -/
structure FS where
  dirs : List String
  files : List (String × String)
  failOpen : List String
deriving DecidableEq, Repr

/-- Split a character list on the slash character. -/
def splitOnSlash : List Char → List (List Char)
  | [] => [[]]
  | c :: t =>
    let r := splitOnSlash t
    if c = '/' then [] :: r
    else
      match r with
      | h :: t2 => (c :: h) :: t2
      | [] => [[c]]

/-- Join slash-separated components back into one character list. -/
def joinSlash : List (List Char) → List Char
  | [] => []
  | [x] => x
  | x :: xs => x ++ '/' :: joinSlash xs

/-- Parent of a slash-separated path; a bare name lives in the working
directory, written ".". -/
def parentDir (p : String) : String :=
  let parts := splitOnSlash p.data
  if parts.length ≤ 1 then "." else String.mk (joinSlash parts.dropLast)

/-- Slash-prefixes of a component list: the chain of directories os.MkdirAll
creates. -/
def chainOf : List (List Char) → List (List Char)
  | [] => []
  | x :: xs => x :: (chainOf xs).map (fun y => x ++ '/' :: y)

/-- Every slash-prefix of a path, the chain of directories os.MkdirAll
creates. -/
def ancestorChain (p : String) : List String :=
  (chainOf (splitOnSlash p.data)).map String.mk

def FS.dirExists (fs : FS) (d : String) : Bool := fs.dirs.contains d

/-- os.Mkdir: creates the one directory, failing when its parent is absent. -/
def FS.mkdir (fs : FS) (d : String) : Option FS :=
  if fs.dirExists (parentDir d) then some { fs with dirs := d :: fs.dirs } else none

/-- os.MkdirAll: creates the directory together with every missing ancestor;
creating an already-existing directory is not an error. -/
def FS.mkdirAll (fs : FS) (d : String) : FS :=
  { fs with dirs := ancestorChain d ++ fs.dirs }

/-- Writing b into a file from offset zero without truncation: old bytes past
b's length survive. -/
def overwrite (old b : String) : String := b ++ String.mk (old.data.drop b.length)

/-- Lookup in a path-to-content association list; paths are unique, matching
a real file system. -/
def lookupA : List (String × String) → String → Option String
  | [], _ => none
  | kv :: t, p => if kv.1 = p then some kv.2 else lookupA t p

/-- Replace the content of the file at p by overwriting it with b from
offset zero. -/
def updateA (b : String) : List (String × String) → String → List (String × String)
  | [], _ => []
  | kv :: t, p => if kv.1 = p then (kv.1, overwrite kv.2 b) :: t else kv :: updateA b t p

def FS.lookupFile (fs : FS) (p : String) : Option String := lookupA fs.files p

/-- os.OpenFile with O_WRONLY|O_CREATE: fails on a faulted path or when the
containing directory is absent; creates an empty file when the path is new;
an existing file keeps its content, since O_TRUNC is not passed. -/
def FS.openFileCreate (fs : FS) (p : String) : Option FS :=
  if fs.failOpen.contains p then none
  else if fs.dirExists (parentDir p) then
    match fs.lookupFile p with
    | some _ => some fs
    | none => some { fs with files := (p, "") :: fs.files }
  else none

/-- Write b at offset zero of the (already opened) file at p. -/
def FS.writeFile (fs : FS) (p b : String) : FS :=
  { fs with files := updateA b fs.files p }

/-- Outcome of image.Decode on a record's payload: a decoded image with its
detected format string, or an error message.  The decode is performed by
Go's standard library, so it enters the model as an oracle inside `Codec`. -/
inductive DecodeResult where
  | ok (img : Nat) (format : String)
  | err (msg : String)
deriving DecidableEq, Repr

/-- The standard-library codecs the program wraps: image.Decode (combined
with the base64 reader), png.Encode, and jpeg.Encode with its quality
option.  Encoders may fail; on success they yield the encoded bytes. -/
structure Codec where
  decode : String → DecodeResult
  pngEncode : Nat → Option String
  jpegEncode : Nat → Nat → Option String

/-- Result of a record-processing function in the sequential and legacy
variants: normal return with the updated file system, or a log.Fatalln
abort carrying the file state at the moment the process died. -/
inductive Outcome where
  | ok (fs : FS)
  | fatal (fs : FS)
deriving DecidableEq, Repr

/-- Placeholder for the text of an operating-system error value. -/
def oserr : String := "open: no such file or directory"

namespace Seq

/-- Sequential dumpData (csv-image.go, first variant).  The dump path is
built by Sprintf with format "%s/%s.txt" but only `filename` as argument,
so the second verb renders as the missing-argument marker and `outputDir`
never enters the path.  The directory block stats `outputDir` and, when it
is absent, reaches log.Fatalln without ever attempting to create it; a
failed OpenFile is also log.Fatalln. -/
def dumpData (data filename outputDir : String) (fs : FS) : List String × Outcome :=
  let dumpFileName := sprintf "%s/%s.txt" [filename]
  let l1 := sprintf "Dumping data to '%s' for debugging...\n\n" [dumpFileName]
  if fs.dirExists outputDir then
    match fs.openFileCreate dumpFileName with
    | none => ([l1], .fatal fs)
    | some fs1 => ([l1], .ok (fs1.writeFile dumpFileName (data ++ "\n")))
  else
    ([l1, sprintf "Failed create output directory '%s': %s\n" [outputDir, oserr]], .fatal fs)

/-- Sequential encodeToPNG: stats the output directory and calls os.Mkdir
(not MkdirAll) when it is absent; log.Fatalln when Mkdir or OpenFile fails;
on a png.Encode failure the record is routed to dumpData. -/
def encodeToPNG (codec : Codec) (img : Nat) (data filename outputDir : String) (fs : FS) :
    List String × Outcome :=
  let pngFilename := sprintf "%s/%s.png" [outputDir, filename]
  let l1 := sprintf "Writing to '%s'...\n" [pngFilename]
  let afterDir : Option FS := if fs.dirExists outputDir then some fs else fs.mkdir outputDir
  match afterDir with
  | none =>
      ([l1, sprintf "Failed create output directory '%s': %s\n" [outputDir, oserr]], .fatal fs)
  | some fs1 =>
    match fs1.openFileCreate pngFilename with
    | none =>
        ([l1, sprintf "Failed to write file '%s': %s\n" [pngFilename, oserr]], .fatal fs1)
    | some fs2 =>
      match codec.pngEncode img with
      | none =>
          let (ls, out) := dumpData data filename outputDir fs2
          ([l1, sprintf "Parsing error: %s\n" ["png: encoding failed"]] ++ ls, out)
      | some b =>
          ([l1, sprintf "Created '%s'\n" [pngFilename]], .ok (fs2.writeFile pngFilename b))

/-- Sequential encodeToJPEG: its directory block stats `outputDir` and, when
absent, prints the failed-create message and reaches log.Fatalln without
attempting any creation; log.Fatalln when OpenFile fails; jpeg.Encode runs
at quality 100 and on failure routes to dumpData. -/
def encodeToJPEG (codec : Codec) (img : Nat) (data filename outputDir : String) (fs : FS) :
    List String × Outcome :=
  let jpegFileName := sprintf "%s/%s.jpeg" [outputDir, filename]
  let l1 := sprintf "Writing to '%s'...\n" [jpegFileName]
  if fs.dirExists outputDir then
    match fs.openFileCreate jpegFileName with
    | none =>
        ([l1, sprintf "Failed to write file '%s': %s\n" [jpegFileName, oserr]], .fatal fs)
    | some fs1 =>
      match codec.jpegEncode img 100 with
      | none =>
          let (ls, out) := dumpData data filename outputDir fs1
          ([l1, sprintf "Parsing error: %s\n" ["jpeg: encoding failed"]] ++ ls, out)
      | some b =>
          ([l1, sprintf "Created '%s'\n\n" [jpegFileName]], .ok (fs1.writeFile jpegFileName b))
  else
    ([l1, sprintf "Failed create output directory '%s': %s\n" [outputDir, oserr]], .fatal fs)

/-- Sequential base64ToImage: decodes the payload, prints the detected
format, dumps on a decode error, then switches on the format string with
exactly two arms: "jpeg" goes to encodeToJPEG and every other format to
encodeToPNG. -/
def base64ToImage (codec : Codec) (data id outputDir : String) (fs : FS) :
    List String × Outcome :=
  let l1 := sprintf "Attempting to decode data with ID: %s...\n" [id]
  match codec.decode data with
  | .err msg =>
      let l2 := sprintf "Format: %s\n" [""]
      let l3 := sprintf "Parsing error: %s\n" [msg]
      let (ls, out) := dumpData data id outputDir fs
      ([l1, l2, l3] ++ ls, out)
  | .ok img format =>
      let l2 := sprintf "Format: %s\n" [format]
      if format = "jpeg" then
        let (ls, out) := encodeToJPEG codec img data id outputDir fs
        ([l1, l2] ++ ls, out)
      else
        let (ls, out) := encodeToPNG codec img data id outputDir fs
        ([l1, l2] ++ ls, out)

end Seq

namespace Conc

/-- Concurrent dumpData (csv-image.go, second variant): the dump path is
built from both the output directory and the filename, the directory is
created with os.MkdirAll, and every failure is reported in the returned
output string instead of aborting.  The function prints nothing itself: it
returns its output string to the caller. -/
def dumpData (data filename outputDir : String) (fs : FS) : String × FS :=
  let dumpFileName := sprintf "%s/%s.txt" [outputDir, filename]
  let o1 := sprintf "Dumping data to '%s' for debugging...\n\n" [dumpFileName]
  let fs1 := fs.mkdirAll outputDir
  match fs1.openFileCreate dumpFileName with
  | none => (o1 ++ sprintf "Failed to write to dump file: %s" [oserr], fs1)
  | some fs2 => (o1, fs2.writeFile dumpFileName (data ++ "\n"))

/-- Concurrent encodeToPNG: MkdirAll, then OpenFile; on a png.Encode failure
the record is routed to dumpData, whose returned output string is
discarded. -/
def encodeToPNG (codec : Codec) (img : Nat) (data filename outputDir : String) (fs : FS) :
    String × FS :=
  let pngFilename := sprintf "%s/%s.png" [outputDir, filename]
  let o1 := sprintf "Writing to '%s'...\n" [pngFilename]
  let fs1 := fs.mkdirAll outputDir
  match fs1.openFileCreate pngFilename with
  | none => (o1 ++ sprintf "Failed to write file '%s': %s\n" [pngFilename, oserr], fs1)
  | some fs2 =>
    match codec.pngEncode img with
    | none =>
        let (_, fs3) := dumpData data filename outputDir fs2
        (o1 ++ sprintf "Parsing error: %s\n" ["png: encoding failed"], fs3)
    | some b =>
        (o1 ++ sprintf "Created '%s'\n\n" [pngFilename], fs2.writeFile pngFilename b)

/-- Concurrent encodeToJPEG: MkdirAll, then OpenFile, then jpeg.Encode at
quality 100; on an encoding failure the record is routed to dumpData, whose
returned output string is discarded. -/
def encodeToJPEG (codec : Codec) (img : Nat) (data filename outputDir : String) (fs : FS) :
    String × FS :=
  let jpegFileName := sprintf "%s/%s.jpeg" [outputDir, filename]
  let o1 := sprintf "Writing to '%s'...\n" [jpegFileName]
  let fs1 := fs.mkdirAll outputDir
  match fs1.openFileCreate jpegFileName with
  | none => (o1 ++ sprintf "Failed to write file '%s': %s\n" [jpegFileName, oserr], fs1)
  | some fs2 =>
    match codec.jpegEncode img 100 with
    | none =>
        let (_, fs3) := dumpData data filename outputDir fs2
        (o1 ++ sprintf "Parsing error: %s\n" ["jpeg: encoding failed"], fs3)
    | some b =>
        (o1 ++ sprintf "Created '%s'\n\n" [jpegFileName], fs2.writeFile jpegFileName b)

/-- Concurrent base64ToImage: accumulates its report in an output string
that is printed once at the end.  On a decode error it prints the parsing
error immediately, calls dumpData discarding its output string, and
returns without ever printing the accumulated output.  The format switch
has three arms: "jpeg", "png", and a default arm that dumps the record
(again discarding dumpData's output string).  The first component of the
result is the list of strings actually printed for this record. -/
def base64ToImage (codec : Codec) (data id outputDir : String) (fs : FS) :
    List String × FS :=
  let o1 := sprintf "Attempting to decode data with ID: %s...\n" [id]
  match codec.decode data with
  | .err msg =>
      let _o2 := o1 ++ sprintf "Format: %s\n" [""]
      let (_, fs1) := dumpData data id outputDir fs
      ([sprintf "Parsing error: %s\n" [msg]], fs1)
  | .ok img format =>
      let o2 := o1 ++ sprintf "Format: %s\n" [format]
      if format = "jpeg" then
        let (o3, fs1) := encodeToJPEG codec img data id outputDir fs
        ([o2 ++ o3], fs1)
      else if format = "png" then
        let (o3, fs1) := encodeToPNG codec img data id outputDir fs
        ([o2 ++ o3], fs1)
      else
        let (_, fs1) := dumpData data id outputDir fs
        ([o2 ++ sprintf "Unrecognized image format: %s\n" [format]], fs1)

end Conc

namespace Legacy

/-- Result of the legacy base64toJpg, which returns an error to main after
dumping: normal success, an error returned with the file state, or a
log.Fatalln abort from inside dumpData. -/
inductive JpgResult where
  | ok (fs : FS)
  | err (fs : FS)
  | fatal (fs : FS)
deriving DecidableEq, Repr

/-- Legacy dumpData (csv-jpeg variant): writes the payload plus newline to
./output/<filename>.txt, aborting with log.Fatalln when OpenFile fails; it
never creates the output directory. -/
def dumpData (data filename : String) (fs : FS) : Outcome :=
  let dumpFileName := sprintf "./output/%s.txt" [filename]
  match fs.openFileCreate dumpFileName with
  | none => .fatal fs
  | some fs1 => .ok (fs1.writeFile dumpFileName (data ++ "\n"))

/-- Legacy base64toJpg: decodes the payload and always encodes it as JPEG at
quality 100 into ./output/<filename>.jpeg; every failure dumps the payload
and then returns the error to main. -/
def base64toJpg (codec : Codec) (data filename : String) (fs : FS) : JpgResult :=
  let jpegFileName := sprintf "./output/%s.jpeg" [filename]
  match codec.decode data with
  | .err _ =>
      match dumpData data filename fs with
      | .fatal fs1 => .fatal fs1
      | .ok fs1 => .err fs1
  | .ok img _format =>
    match fs.openFileCreate jpegFileName with
    | none =>
        match dumpData data filename fs with
        | .fatal fs1 => .fatal fs1
        | .ok fs1 => .err fs1
    | some fs1 =>
      match codec.jpegEncode img 100 with
      | none =>
          match dumpData data filename fs1 with
          | .fatal fs2 => .fatal fs2
          | .ok fs2 => .err fs2
      | some b => .ok (fs1.writeFile jpegFileName b)

end Legacy

/-- Result of a whole run: normal completion (exit code 0), a log.Fatalln
abort (nonzero exit), or a runtime index-out-of-range panic (also a
nonzero exit, but a crash rather than a logged fatal error).  Each carries
the file state when the process stopped. -/
inductive RunResult where
  | done (fs : FS)
  | fatalErr (fs : FS)
  | panicked (fs : FS)
deriving DecidableEq, Repr

/-- The field-count check Go's csv.Reader applies to each record under the
default FieldsPerRecord = 0 configuration: the first record is always
accepted, later records must match the fixed count. -/
def fieldsCheck (expected : Option Nat) (n : Nat) : Bool :=
  match expected with
  | some m => n == m
  | none => true

/-- The unguarded accesses record[0] and record[1] in the driver loop: a
record with fewer than two fields makes the access panic. -/
def recAccess (record : List String) : Option (String × String) :=
  match record with
  | id :: data :: _ => some (id, data)
  | _ => none

/-- Go encoding/csv Read iterated to exhaustion under the default
FieldsPerRecord = 0 configuration: the first record fixes the expected
field count, and a later record whose count differs fails with
ErrFieldCount at that record.  The error value carries the offending
record.  Rows are taken already split into fields, abstracting the
textual comma parsing done by the standard library. -/
def csvReadAll : Option Nat → List (List String) → Except (List String) (List (List String))
  | _, [] => .ok []
  | expected, r :: rest =>
    match expected with
    | some m =>
        if r.length = m then (csvReadAll (some m) rest).map (fun t => r :: t)
        else .error r
    | none => (csvReadAll (some r.length) rest).map (fun t => r :: t)

namespace Seq

/-- Sequential main loop: reader.Read with the field-count check, then
log.Fatalln on a read error, then the unguarded record accesses at
indices 0 and 1 (a record shorter than two fields panics), then
base64ToImage, whose fatal outcomes kill the run. -/
def mainLoop (codec : Codec) (outputDir : String) :
    Option Nat → List (List String) → FS → List String × RunResult
  | _, [], fs => ([], .done fs)
  | expected, record :: rest, fs =>
    if fieldsCheck expected record.length then
      match recAccess record with
      | some (id, data) =>
          let (ls, out) := base64ToImage codec data id outputDir fs
          match out with
          | .fatal fs1 => (ls, .fatalErr fs1)
          | .ok fs1 =>
              let (ls2, r) := mainLoop codec outputDir (some record.length) rest fs1
              (ls ++ ls2, r)
      | none => ([], .panicked fs)
    else ([], .fatalErr fs)

/-- Sequential main: parseCSV (input comes as none when opening or reading
the input file fails, otherwise as the parsed rows), the record loop, and
the final summary line on normal completion. -/
def main (codec : Codec) (input : Option (List (List String)))
    (filepath outputDir : String) (fs : FS) : List String × RunResult :=
  let l0 := sprintf "Importing file '%s'...\n" [filepath]
  match input with
  | none => ([l0], .fatalErr fs)
  | some rows =>
      match mainLoop codec outputDir none rows fs with
      | (ls, .done fs1) =>
          ([l0] ++ ls ++ [sprintf "\nDone! Check %s for image output.\n" [outputDir]], .done fs1)
      | (ls, r) => ([l0] ++ ls, r)

end Seq

namespace Conc

/-- Concurrent main loop, linearized: the reader stage is serial and the
dispatched workers write to distinct per-record files, so the run is
modelled by processing each dispatched record in order.  Record
processing never aborts in this variant; only a read error or the
unguarded record accesses can stop the loop. -/
def mainLoop (codec : Codec) (outputDir : String) :
    Option Nat → List (List String) → FS → List String × RunResult
  | _, [], fs => ([], .done fs)
  | expected, record :: rest, fs =>
    if fieldsCheck expected record.length then
      match recAccess record with
      | some (id, data) =>
          let (ls, fs1) := base64ToImage codec data id outputDir fs
          let (ls2, r) := mainLoop codec outputDir (some record.length) rest fs1
          (ls ++ ls2, r)
      | none => ([], .panicked fs)
    else ([], .fatalErr fs)

/-- Concurrent main: parseCSV, the dispatch loop, the WaitGroup barrier, and
the final summary line on normal completion. -/
def main (codec : Codec) (input : Option (List (List String)))
    (filepath outputDir : String) (fs : FS) : List String × RunResult :=
  let l0 := sprintf "Importing file '%s'...\n" [filepath]
  match input with
  | none => ([l0], .fatalErr fs)
  | some rows =>
      match mainLoop codec outputDir none rows fs with
      | (ls, .done fs1) =>
          ([l0] ++ ls ++ [sprintf "\nDone! Check %s for image output.\n" [outputDir]], .done fs1)
      | (ls, r) => ([l0] ++ ls, r)

end Conc

namespace Legacy

/-- Legacy main loop: any error returned by base64toJpg is log.Fatalln, so
every per-record failure aborts the run. -/
def mainLoop (codec : Codec) : Option Nat → List (List String) → FS → RunResult
  | _, [], fs => .done fs
  | expected, record :: rest, fs =>
    if fieldsCheck expected record.length then
      match recAccess record with
      | some (filename, data) =>
          match base64toJpg codec data filename fs with
          | .ok fs1 => mainLoop codec (some record.length) rest fs1
          | .err fs1 => .fatalErr fs1
          | .fatal fs1 => .fatalErr fs1
      | none => .panicked fs
    else .fatalErr fs

/-- Legacy main: parseCSV then the record loop. -/
def main (codec : Codec) (input : Option (List (List String))) (fs : FS) : RunResult :=
  match input with
  | none => .fatalErr fs
  | some rows => mainLoop codec none rows fs

end Legacy

/-- The write primitive shared by every output site of the program: OpenFile
with O_WRONLY|O_CREATE followed by writing the encoded bytes from offset
zero. -/
def writeOut (fs : FS) (p b : String) : Option FS :=
  (fs.openFileCreate p).map (fun fs1 => fs1.writeFile p b)

/-- A codec for concrete runs: three recognized payloads and encoders that
succeed deterministically. -/
def testCodec : Codec where
  decode := fun s =>
    if s = "JPEGDATA" then .ok 1 "jpeg"
    else if s = "PNGDATA" then .ok 2 "png"
    else if s = "GIFDATA" then .ok 3 "gif"
    else .err "image: unknown format"
  pngEncode := fun i => some ("PNGBYTES" ++ toString i)
  jpegEncode := fun i q => some ("JPEGBYTES" ++ toString i ++ "Q" ++ toString q)

/-- A codec that decodes like testCodec but whose encoders fail mid-write. -/
def encFailCodec : Codec where
  decode := testCodec.decode
  pngEncode := fun _ => none
  jpegEncode := fun _ _ => none

/-- A starting file system holding just the working directory. -/
def fs0 : FS := { dirs := ["."], files := [], failOpen := [] }

/-- A starting file system in which ./output already exists. -/
def fsOut : FS := { dirs := [".", "./output"], files := [], failOpen := [] }

/-- A starting file system where ./output exists but opening ./output/a.png
faults (a permission-style output error). -/
def fsFailA : FS := { dirs := [".", "./output"], files := [], failOpen := ["./output/a.png"] }

/-! Basic facts about the file-system model. -/

theorem overwrite_empty (b : String) : overwrite "" b = b := by
  simp [overwrite]

theorem overwrite_overwrite (c b : String) : overwrite (overwrite c b) b = overwrite c b := by
  simp [overwrite]

theorem lookupA_updateA_self (l : List (String × String)) (p b : String) :
    lookupA (updateA b l p) p = (lookupA l p).map (fun c => overwrite c b) := by
  induction l with
  | nil => rfl
  | cons kv t ih =>
    by_cases h : kv.1 = p
    · simp [lookupA, updateA, h]
    · simp [lookupA, updateA, h, ih]

theorem lookupA_updateA_ne (l : List (String × String)) (p q b : String) (hne : q ≠ p) :
    lookupA (updateA b l p) q = lookupA l q := by
  induction l with
  | nil => rfl
  | cons kv t ih =>
    by_cases h : kv.1 = p
    · have hq : kv.1 ≠ q := fun e => hne (e ▸ h)
      have hpq : p ≠ q := fun e => hne e.symm
      simp [lookupA, updateA, h, hq, hpq]
    · by_cases hq : kv.1 = q
      · simp [lookupA, updateA, h, hq, hne]
      · simp [lookupA, updateA, h, hq, ih]

theorem updateA_fix (l : List (String × String)) (p b : String)
    (h : ∀ c, lookupA l p = some c → overwrite c b = c) : updateA b l p = l := by
  induction l with
  | nil => rfl
  | cons kv t ih =>
    rcases kv with ⟨k, v⟩
    by_cases hk : k = p
    · have hv := h v (by simp [lookupA, hk])
      simp [updateA, hk, hv]
    · simp only [updateA, if_neg (by simpa using hk)]
      rw [ih]
      intro c hc
      exact h c (by simpa [lookupA, hk] using hc)

theorem FS.lookupFile_writeFile_self (fs : FS) (p b : String) :
    (fs.writeFile p b).lookupFile p = (fs.lookupFile p).map (fun c => overwrite c b) :=
  lookupA_updateA_self fs.files p b

theorem FS.lookupFile_writeFile_ne (fs : FS) (p q b : String) (hne : q ≠ p) :
    (fs.writeFile p b).lookupFile q = fs.lookupFile q :=
  lookupA_updateA_ne fs.files p q b hne

theorem FS.writeFile_fix (fs : FS) (p b : String)
    (h : ∀ c, fs.lookupFile p = some c → overwrite c b = c) : fs.writeFile p b = fs := by
  have hu := updateA_fix fs.files p b h
  cases fs
  simp only [FS.writeFile] at hu ⊢
  simp [hu]

theorem FS.dirExists_mkdirAll_mono (fs : FS) (d q : String) (h : fs.dirExists q = true) :
    (fs.mkdirAll d).dirExists q = true := by
  rw [FS.dirExists, List.elem_iff] at *
  exact List.mem_append_right _ h

theorem FS.mkdirAll_files (fs : FS) (d : String) : (fs.mkdirAll d).files = fs.files := rfl

theorem FS.mkdirAll_failOpen (fs : FS) (d : String) :
    (fs.mkdirAll d).failOpen = fs.failOpen := rfl

theorem FS.writeFile_dirs (fs : FS) (p b : String) : (fs.writeFile p b).dirs = fs.dirs := rfl

theorem FS.writeFile_failOpen (fs : FS) (p b : String) :
    (fs.writeFile p b).failOpen = fs.failOpen := rfl

theorem FS.lookupFile_mkdirAll (fs : FS) (d p : String) :
    (fs.mkdirAll d).lookupFile p = fs.lookupFile p := rfl

theorem FS.openFileCreate_fresh (fs : FS) (p : String)
    (hf : p ∉ fs.failOpen) (hd : fs.dirExists (parentDir p) = true)
    (hn : fs.lookupFile p = none) :
    fs.openFileCreate p = some { fs with files := (p, "") :: fs.files } := by
  simp [FS.openFileCreate, hf, hd, hn]

theorem FS.openFileCreate_existing (fs : FS) (p c : String)
    (hf : p ∉ fs.failOpen) (hd : fs.dirExists (parentDir p) = true)
    (hc : fs.lookupFile p = some c) :
    fs.openFileCreate p = some fs := by
  simp [FS.openFileCreate, hf, hd, hc]

theorem FS.lookupFile_consFile_self (fs : FS) (p c : String) :
    (FS.mk fs.dirs ((p, c) :: fs.files) fs.failOpen).lookupFile p = some c := by
  simp [FS.lookupFile, lookupA]

theorem FS.lookupFile_consFile_ne (fs : FS) (p q c : String) (hne : q ≠ p) :
    (FS.mk fs.dirs ((p, c) :: fs.files) fs.failOpen).lookupFile q = fs.lookupFile q := by
  have h2 : p ≠ q := fun e => hne e.symm
  simp [FS.lookupFile, lookupA, h2]

/-- Every successful csvReadAll returns exactly the rows it consumed. -/
theorem csvReadAll_ok_eq (rows : List (List String)) :
    ∀ (e : Option Nat) (out : List (List String)), csvReadAll e rows = .ok out → out = rows := by
  induction rows with
  | nil => intro e out h; cases h; rfl
  | cons r t ih =>
    intro e out h
    cases e with
    | some m =>
      by_cases hl : r.length = m
      · rw [csvReadAll, if_pos hl] at h
        cases hcs : csvReadAll (some m) t with
        | error e2 => rw [hcs] at h; cases h
        | ok o2 => rw [hcs] at h; cases h; rw [ih (some m) o2 hcs]
      · rw [csvReadAll, if_neg hl] at h
        cases h
    | none =>
      rw [csvReadAll] at h
      cases hcs : csvReadAll (some r.length) t with
      | error e2 => rw [hcs] at h; cases h
      | ok o2 => rw [hcs] at h; cases h; rw [ih _ o2 hcs]

/-! Claim C1. -/

/-- C1 counterexample: the claim says every recognized non-JPEG format is
encoded as PNG and never dumped, but in the concurrent variant a record
that decodes as "gif" is routed to the default switch arm, which dumps the
payload to the .txt file and writes no image file at all. -/
theorem C1_counterexample :
    testCodec.decode "GIFDATA" = .ok 3 "gif"
    ∧ (Conc.base64ToImage testCodec "GIFDATA" "img1" "./output" fs0).2.lookupFile
        "./output/img1.png" = none
    ∧ (Conc.base64ToImage testCodec "GIFDATA" "img1" "./output" fs0).2.lookupFile
        "./output/img1.jpeg" = none
    ∧ (Conc.base64ToImage testCodec "GIFDATA" "img1" "./output" fs0).2.lookupFile
        "./output/img1.txt" = some "GIFDATA\n" := by
  decide

/-- C1 amended: in the sequential variant the routing is the claimed two-way
table (detected format "jpeg" is encoded as JPEG to outputDir/id.jpeg, every
other detected format as PNG to outputDir/id.png); in the concurrent
variant the routing is three-way: "jpeg" to JPEG, "png" to PNG, and any
other detected format is not encoded at all but dumped to
outputDir/id.txt. -/
theorem C1_amended :
    (∀ (codec : Codec) (img : Nat) (format data b : String),
      codec.decode data = .ok img format → format ≠ "jpeg" →
      codec.pngEncode img = some b →
      (Seq.base64ToImage codec data "img1" "./output" fsOut).2 =
        .ok (FS.mk [".", "./output"] [("./output/img1.png", b)] []))
    ∧ (∀ (codec : Codec) (img : Nat) (data b : String),
      codec.decode data = .ok img "jpeg" →
      codec.jpegEncode img 100 = some b →
      (Seq.base64ToImage codec data "img1" "./output" fsOut).2 =
        .ok (FS.mk [".", "./output"] [("./output/img1.jpeg", b)] []))
    ∧ (∀ (codec : Codec) (img : Nat) (data b : String),
      codec.decode data = .ok img "jpeg" →
      codec.jpegEncode img 100 = some b →
      (Conc.base64ToImage codec data "img1" "./output" fs0).2 =
        FS.mk [".", "./output", "."] [("./output/img1.jpeg", b)] [])
    ∧ (∀ (codec : Codec) (img : Nat) (data b : String),
      codec.decode data = .ok img "png" →
      codec.pngEncode img = some b →
      (Conc.base64ToImage codec data "img1" "./output" fs0).2 =
        FS.mk [".", "./output", "."] [("./output/img1.png", b)] [])
    ∧ (∀ (codec : Codec) (img : Nat) (format data : String),
      codec.decode data = .ok img format → format ≠ "jpeg" → format ≠ "png" →
      (Conc.base64ToImage codec data "img1" "./output" fs0).2 =
        FS.mk [".", "./output", "."] [("./output/img1.txt", data ++ "\n")] []) := by
  have hp : sprintf "%s/%s.png" ["./output", "img1"] = "./output/img1.png" := by decide
  have hj : sprintf "%s/%s.jpeg" ["./output", "img1"] = "./output/img1.jpeg" := by decide
  have ht : sprintf "%s/%s.txt" ["./output", "img1"] = "./output/img1.txt" := by decide
  have h1 : (if fsOut.dirExists "./output" = true then some fsOut
      else fsOut.mkdir "./output") = some fsOut := by decide
  have h2 : fsOut.openFileCreate "./output/img1.png" =
      some (FS.mk [".", "./output"] [("./output/img1.png", "")] []) := by decide
  have h2j : fsOut.openFileCreate "./output/img1.jpeg" =
      some (FS.mk [".", "./output"] [("./output/img1.jpeg", "")] []) := by decide
  have hdytrue : fsOut.dirExists "./output" = true := by decide
  have hm : fs0.mkdirAll "./output" = FS.mk [".", "./output", "."] [] [] := by decide
  have h3 : (FS.mk [".", "./output", "."] [] ([] : List String)).openFileCreate
      "./output/img1.png" =
      some (FS.mk [".", "./output", "."] [("./output/img1.png", "")] []) := by decide
  have h3j : (FS.mk [".", "./output", "."] [] ([] : List String)).openFileCreate
      "./output/img1.jpeg" =
      some (FS.mk [".", "./output", "."] [("./output/img1.jpeg", "")] []) := by decide
  have h3t : (FS.mk [".", "./output", "."] [] ([] : List String)).openFileCreate
      "./output/img1.txt" =
      some (FS.mk [".", "./output", "."] [("./output/img1.txt", "")] []) := by decide
  refine ⟨?_, ?_, ?_, ?_, ?_⟩
  · intro codec img format data b hdec hne henc
    simp only [Seq.base64ToImage, hdec]
    rw [if_neg hne]
    simp only [Seq.encodeToPNG, hp, h1, h2, henc]
    simp [FS.writeFile, updateA, overwrite_empty]
  · intro codec img data b hdec henc
    simp only [Seq.base64ToImage, hdec]
    rw [if_pos trivial]
    simp only [Seq.encodeToJPEG, hj, hdytrue, if_true, h2j, henc]
    simp [FS.writeFile, updateA, overwrite_empty]
  · intro codec img data b hdec henc
    simp only [Conc.base64ToImage, hdec]
    rw [if_pos trivial]
    simp only [Conc.encodeToJPEG, hj, hm, h3j, henc]
    simp [FS.writeFile, updateA, overwrite_empty]
  · intro codec img data b hdec henc
    simp only [Conc.base64ToImage, hdec]
    rw [if_pos trivial]
    simp only [Conc.encodeToPNG, hp, hm, h3, henc]
    simp [FS.writeFile, updateA, overwrite_empty]
  · intro codec img format data hdec hne hnp
    simp only [Conc.base64ToImage, hdec]
    rw [if_neg hne, if_neg hnp]
    simp only [Conc.dumpData, ht, hm, h3t]
    simp [FS.writeFile, updateA, overwrite_empty]

/-- C1 amended witness: the routing facts instantiated at the concrete test
codec, a GIF record for the sequential arm and JPEG, PNG and GIF records
for the concurrent arms. -/
theorem C1_amended_witness :
    (Seq.base64ToImage testCodec "GIFDATA" "img1" "./output" fsOut).2 =
      .ok (FS.mk [".", "./output"] [("./output/img1.png", "PNGBYTES3")] [])
    ∧ (Conc.base64ToImage testCodec "JPEGDATA" "img1" "./output" fs0).2 =
      FS.mk [".", "./output", "."] [("./output/img1.jpeg", "JPEGBYTES1Q100")] []
    ∧ (Conc.base64ToImage testCodec "GIFDATA" "img1" "./output" fs0).2 =
      FS.mk [".", "./output", "."] [("./output/img1.txt", "GIFDATA\n")] [] :=
  ⟨C1_amended.1 testCodec 3 "gif" "GIFDATA" "PNGBYTES3" (by decide) (by decide) (by decide),
   C1_amended.2.2.1 testCodec 1 "JPEGDATA" "JPEGBYTES1Q100" (by decide) (by decide),
   C1_amended.2.2.2.2 testCodec 3 "gif" "GIFDATA" (by decide) (by decide) (by decide)⟩

/-! Claim C2. -/

/-- C2: the Fallback Dumper is claimed to write the payload plus newline to
outputDir/identifier.txt.  The concurrent variant does exactly that, but
the sequential variant builds its dump path with a Sprintf that is missing
an argument, producing identifier/missing-marker.txt instead of any path
under the output directory, and it aborts via log.Fatalln when that bogus
path cannot be opened, so no .txt appears under outputDir at all. -/
theorem C2_theorem :
    sprintf "%s/%s.txt" ["id1"] = "id1/%!s(MISSING).txt"
    ∧ (Seq.dumpData "payload" "id1" "./output" fsOut).1 =
        ["Dumping data to 'id1/%!s(MISSING).txt' for debugging...\n\n"]
    ∧ (Seq.dumpData "payload" "id1" "./output" fsOut).2 = .fatal fsOut
    ∧ (Conc.dumpData "payload" "id1" "./output" fs0).2.lookupFile "./output/id1.txt" =
        some "payload\n"
    ∧ (Conc.dumpData "payload" "id1" "./output" fs0).2.lookupFile "./output/id1.png" = none := by
  decide

/-! Claim C5. -/

/-- C5 counterexample: the claim says any row without exactly two fields
fails with a malformed-row error regardless of position, but a three-field
first row is yielded without error, and a file whose rows all have one
field is read in full without error. -/
theorem C5_counterexample :
    csvReadAll none [["a", "b", "c"]] = .ok [["a", "b", "c"]]
    ∧ csvReadAll none [["x"], ["y"]] = .ok [["x"], ["y"]] :=
  ⟨rfl, rfl⟩

/-- C5 amended: the reader checks field counts only against the count fixed
by the first row: with an expected count m every row is yielded iff all
rows have m fields, and a file is read in full iff every later row has as
many fields as the first; in particular rows of a two-field-headed file
fail exactly when they do not have two fields. -/
theorem C5_amended :
    (∀ (m : Nat) (rows : List (List String)),
      csvReadAll (some m) rows = .ok rows ↔ ∀ r ∈ rows, r.length = m)
    ∧ (∀ (r0 : List String) (rest : List (List String)),
      csvReadAll none (r0 :: rest) = .ok (r0 :: rest) ↔ ∀ r ∈ rest, r.length = r0.length) := by
  have main : ∀ (m : Nat) (rows : List (List String)),
      csvReadAll (some m) rows = .ok rows ↔ ∀ r ∈ rows, r.length = m := by
    intro m rows
    induction rows with
    | nil => simp [csvReadAll]
    | cons r t ih =>
      by_cases hl : r.length = m
      · rw [csvReadAll, if_pos hl]
        constructor
        · intro h
          cases hcs : csvReadAll (some m) t with
          | error e2 => rw [hcs] at h; cases h
          | ok o2 =>
            rw [hcs] at h
            have ho : o2 = t := csvReadAll_ok_eq t (some m) o2 hcs
            subst ho
            intro x hx
            rcases List.mem_cons.mp hx with hx | hx
            · exact hx ▸ hl
            · exact (ih.mp hcs) x hx
        · intro h
          have : csvReadAll (some m) t = .ok t := ih.mpr (fun x hx => h x (List.mem_cons_of_mem _ hx))
          rw [this]
          rfl
      · rw [csvReadAll, if_neg hl]
        constructor
        · intro h; cases h
        · intro h; exact absurd (h r (List.mem_cons_self r t)) hl
  refine ⟨main, ?_⟩
  intro r0 rest
  rw [csvReadAll]
  constructor
  · intro h
    cases hcs : csvReadAll (some r0.length) rest with
    | error e2 => rw [hcs] at h; cases h
    | ok o2 =>
      rw [hcs] at h
      have ho : o2 = rest := csvReadAll_ok_eq rest _ o2 hcs
      exact (main r0.length rest).mp (ho ▸ hcs)
  · intro h
    have : csvReadAll (some r0.length) rest = .ok rest := (main r0.length rest).mpr h
    rw [this]
    rfl

/-- C5 amended witness: with the expected count fixed at two, a two-field
file is read in full and a file with a short second row is not. -/
theorem C5_amended_witness :
    csvReadAll (some 2) [["x", "y"], ["z", "w"]] = .ok [["x", "y"], ["z", "w"]]
    ∧ csvReadAll none [["x", "y"], ["z"]] ≠ .ok [["x", "y"], ["z"]] := by
  constructor
  · exact (C5_amended.1 2 [["x", "y"], ["z", "w"]]).mpr (by decide)
  · intro h
    have := (C5_amended.2 ["x", "y"] [["z"]]).mp h
    exact absurd (this ["z"] (by decide)) (by decide)

/-! Claim C6. -/

/-- C6: the claim says every output path creates the output directory with
its missing ancestors before writing, and an existing directory is not an
error.  In the sequential variant encodeToJPEG and dumpData never attempt
any creation and log.Fatalln when the directory is absent, and
encodeToPNG's os.Mkdir cannot create a missing ancestor; only the
concurrent variant's os.MkdirAll creates the full chain as claimed. -/
theorem C6_theorem :
    (Seq.encodeToJPEG testCodec 1 "d" "id" "out" fs0).2 = .fatal fs0
    ∧ (Seq.dumpData "d" "id" "out" fs0).2 = .fatal fs0
    ∧ (Seq.encodeToPNG testCodec 1 "d" "id" "a/b" fs0).2 = .fatal fs0
    ∧ (Conc.encodeToPNG testCodec 1 "d" "id" "a/b" fs0).2.dirExists "a" = true
    ∧ (Conc.encodeToPNG testCodec 1 "d" "id" "a/b" fs0).2.dirExists "a/b" = true
    ∧ (Conc.encodeToPNG testCodec 1 "d" "id" "a/b" fs0).2.lookupFile "a/b/id.png" =
        some "PNGBYTES1" := by
  decide

/-- The concurrent main loop completes normally on any input whose rows all
have two fields, whatever the codec results and file-system faults are:
record processing in this variant never aborts the run. -/
theorem conc_mainLoop_done (codec : Codec) (outDir : String) :
    ∀ (rows : List (List String)) (expected : Option Nat) (fs : FS),
      (∀ r ∈ rows, r.length = 2) → (expected = none ∨ expected = some 2) →
      ∃ ls fs', Conc.mainLoop codec outDir expected rows fs = (ls, .done fs')
  | [], _, fs, _, _ => ⟨[], fs, rfl⟩
  | r :: t, e, fs, hall, he => by
    have hr : r.length = 2 := hall r (List.mem_cons_self r t)
    rcases r with _ | ⟨a, r2⟩
    · simp at hr
    rcases r2 with _ | ⟨b2, r3⟩
    · simp at hr
    have hcheck : fieldsCheck e (a :: b2 :: r3).length = true := by
      rcases he with he | he <;> subst he <;> simp_all [fieldsCheck]
    rcases hB : Conc.base64ToImage codec b2 a outDir fs with ⟨ls1, fs1⟩
    obtain ⟨lsr, fsr, hrec⟩ := conc_mainLoop_done codec outDir t (some (a :: b2 :: r3).length) fs1
      (fun x hx => hall x (List.mem_cons_of_mem _ hx)) (Or.inr (by rw [hr]))
    refine ⟨ls1 ++ lsr, fsr, ?_⟩
    rw [Conc.mainLoop, if_pos hcheck]
    simp only [recAccess, hB, hrec]

/-- Once the expected field count is fixed at two, the concurrent main loop
aborts with log.Fatalln at the first row whose field count differs, after
processing exactly the rows before it: the rows after the bad row have no
influence on the result. -/
theorem conc_mainLoop_stop (codec : Codec) (outDir : String) :
    ∀ (pre : List (List String)) (bad : List String) (post post2 : List (List String)) (fs : FS),
      (∀ r ∈ pre, r.length = 2) → bad.length ≠ 2 →
      ∃ ls fs',
        Conc.mainLoop codec outDir (some 2) (pre ++ bad :: post) fs = (ls, .fatalErr fs')
        ∧ Conc.mainLoop codec outDir (some 2) (pre ++ bad :: post2) fs = (ls, .fatalErr fs')
  | [], bad, post, post2, fs, _, hbad => by
    have hcheck : fieldsCheck (some 2) bad.length = false := by
      simpa [fieldsCheck] using hbad
    refine ⟨[], fs, ?_, ?_⟩ <;>
      · rw [List.nil_append, Conc.mainLoop, if_neg (by simp [hcheck])]
  | r :: pre, bad, post, post2, fs, hall, hbad => by
    have hr : r.length = 2 := hall r (List.mem_cons_self r pre)
    rcases r with _ | ⟨a, r2⟩
    · simp at hr
    rcases r2 with _ | ⟨b2, r3⟩
    · simp at hr
    have hcheck : fieldsCheck (some 2) (a :: b2 :: r3).length = true := by
      simpa [fieldsCheck] using hr
    rcases hB : Conc.base64ToImage codec b2 a outDir fs with ⟨ls1, fs1⟩
    obtain ⟨lsr, fsr, hrec, hrec2⟩ := conc_mainLoop_stop codec outDir pre bad post post2 fs1
      (fun x hx => hall x (List.mem_cons_of_mem _ hx)) hbad
    refine ⟨ls1 ++ lsr, fsr, ?_, ?_⟩ <;>
      · rw [List.cons_append, Conc.mainLoop, if_pos hcheck]
        simp only [recAccess, hB, hr, hrec, hrec2]

/-! Claim C3. -/

/-- C3 counterexample: the claim says per-record failures are handled at the
record boundary and never stop the run, but in the legacy variant a decode
failure on the first record aborts the whole run with log.Fatalln: the
final file state holds the first record's dump and no output at all for its
sibling record. -/
theorem C3_counterexample :
    testCodec.decode "badb64" = .err "image: unknown format"
    ∧ Legacy.main testCodec (some [["a", "badb64"], ["b", "JPEGDATA"]]) fsOut =
        .fatalErr (FS.mk [".", "./output"] [("./output/a.txt", "badb64\n")] []) := by
  decide

/-- C3 amended: only the concurrent variant handles every per-record failure
locally — its runs complete normally on any two-field input, whatever the
per-record failures.  In the sequential variant an output-side I/O error
(here a faulted OpenFile on the image file) aborts the whole run before the
sibling record is processed, and in the legacy variant even a decode
failure aborts the run. -/
theorem C3_amended :
    (∀ (codec : Codec) (rows : List (List String)) (fp outDir : String) (fs : FS),
      (∀ r ∈ rows, r.length = 2) →
      ∃ ls fs', Conc.main codec (some rows) fp outDir fs = (ls, .done fs'))
    ∧ (Seq.main testCodec (some [["a", "PNGDATA"], ["b", "PNGDATA"]]) "t.csv" "./output"
        fsFailA).2 = .fatalErr fsFailA
    ∧ Legacy.main testCodec (some [["a", "badb64"], ["b", "JPEGDATA"]]) fsOut =
        .fatalErr (FS.mk [".", "./output"] [("./output/a.txt", "badb64\n")] []) := by
  refine ⟨?_, by decide, by decide⟩
  intro codec rows fp outDir fs hall
  obtain ⟨ls, fs', h⟩ := conc_mainLoop_done codec outDir rows none fs hall (Or.inl rfl)
  refine ⟨[sprintf "Importing file '%s'...\n" [fp]] ++ ls ++
    [sprintf "\nDone! Check %s for image output.\n" [outDir]], fs', ?_⟩
  simp only [Conc.main, h]

/-- C3 amended witness: a concrete concurrent run over one failing and one
succeeding record completes normally. -/
theorem C3_amended_witness :
    ∃ ls fs', Conc.main testCodec (some [["a", "badb64"], ["b", "JPEGDATA"]]) "t.csv"
      "./output" fs0 = (ls, .done fs') :=
  C3_amended.1 testCodec [["a", "badb64"], ["b", "JPEGDATA"]] "t.csv" "./output" fs0 (by decide)

/-! Claim C4. -/

/-- C4 counterexample: the claim says the program exits nonzero exactly when
a Record Source error occurs, but here the input parses without any reader
error and the sequential run still aborts nonzero: the failing record's
dump path cannot be opened and dumpData reaches log.Fatalln. -/
theorem C4_counterexample :
    csvReadAll none [["a", "badb64"]] = .ok [["a", "badb64"]]
    ∧ (Seq.main testCodec (some [["a", "badb64"]]) "t.csv" "./output" fsOut).2 =
        .fatalErr fsOut :=
  ⟨rfl, by decide⟩

/-- C4 amended: an unreadable input aborts nonzero at once; after a two-field
first row, the first row whose field count differs aborts the run
immediately and the rows after it are never processed; a run that merely
dumps a failing record still completes with exit code 0 in the concurrent
variant; but nonzero exits are not exclusive to Record Source errors: the
sequential variant also aborts on a per-record output-side failure. -/
theorem C4_amended :
    (∀ (codec : Codec) (fp outDir : String) (fs : FS),
      (Seq.main codec none fp outDir fs).2 = .fatalErr fs
      ∧ (Conc.main codec none fp outDir fs).2 = .fatalErr fs)
    ∧ (∀ (codec : Codec) (fp outDir : String) (fs : FS) (r0 bad : List String)
        (pre post : List (List String)),
      r0.length = 2 → (∀ r ∈ pre, r.length = 2) → bad.length ≠ 2 →
      Conc.main codec (some (r0 :: (pre ++ bad :: post))) fp outDir fs
        = Conc.main codec (some (r0 :: (pre ++ [bad]))) fp outDir fs
      ∧ ∃ fs', (Conc.main codec (some (r0 :: (pre ++ bad :: post))) fp outDir fs).2 =
          .fatalErr fs')
    ∧ (Conc.main testCodec (some [["a", "badb64"], ["b", "JPEGDATA"]]) "t.csv" "./output"
        fs0).2 = .done (FS.mk [".", "./output", ".", "./output", "."]
          [("./output/b.jpeg", "JPEGBYTES1Q100"), ("./output/a.txt", "badb64\n")] [])
    ∧ (Seq.main testCodec (some [["a", "PNGDATA"]]) "t.csv" "./output" fsFailA).2 =
        .fatalErr fsFailA := by
  refine ⟨fun codec fp outDir fs => ⟨rfl, rfl⟩, ?_, by decide, by decide⟩
  intro codec fp outDir fs r0 bad pre post h0 hall hbad
  rcases r0 with _ | ⟨a, r2⟩
  · simp at h0
  rcases r2 with _ | ⟨b2, r3⟩
  · simp at h0
  rcases hB : Conc.base64ToImage codec b2 a outDir fs with ⟨ls1, fs1⟩
  obtain ⟨lsr, fsr, hrec, hrec2⟩ :=
    conc_mainLoop_stop codec outDir pre bad post [] fs1 hall hbad
  have hstep : ∀ (rest : List (List String)),
      Conc.mainLoop codec outDir none ((a :: b2 :: r3) :: rest) fs
        = (ls1 ++ (Conc.mainLoop codec outDir (some (a :: b2 :: r3).length) rest fs1).1,
           (Conc.mainLoop codec outDir (some (a :: b2 :: r3).length) rest fs1).2) := by
    intro rest
    rw [Conc.mainLoop, if_pos (by simp [fieldsCheck])]
    simp only [recAccess, hB]
  have h2 : (a :: b2 :: r3).length = 2 := h0
  constructor
  · simp only [Conc.main, hstep, h2, hrec, hrec2]
  · refine ⟨fsr, ?_⟩
    simp only [Conc.main, hstep, h2, hrec]

/-- C4 amended witness: a concrete malformed third row after a good first
and second row aborts the run, and the rows after it do not matter. -/
theorem C4_amended_witness :
    Conc.main testCodec (some [["a", "JPEGDATA"], ["b", "PNGDATA"], ["x", "y", "z"],
        ["c", "JPEGDATA"]]) "t.csv" "./output" fs0
      = Conc.main testCodec (some [["a", "JPEGDATA"], ["b", "PNGDATA"], ["x", "y", "z"]])
          "t.csv" "./output" fs0
    ∧ ∃ fs', (Conc.main testCodec (some [["a", "JPEGDATA"], ["b", "PNGDATA"], ["x", "y", "z"],
        ["c", "JPEGDATA"]]) "t.csv" "./output" fs0).2 = .fatalErr fs' :=
  C4_amended.2.1 testCodec "t.csv" "./output" fs0 ["a", "JPEGDATA"] ["x", "y", "z"]
    [["b", "PNGDATA"]] [["c", "JPEGDATA"]] (by decide) (by decide) (by decide)

/-- Any list followed by a one-element list ends in that element. -/
theorem getLast_append_singleton {α : Type} (l : List α) (a : α) :
    (l ++ [a]).getLast? = some a := by
  induction l with
  | nil => rfl
  | cons x t ih =>
    rw [List.cons_append]
    cases h : t ++ [a] with
    | nil => cases t <;> simp at h
    | cons y u =>
      rw [h] at ih
      rw [List.getLast?_cons_cons]
      exact ih

/-- The sequential dumpData always prints its dump-path line first, whatever
happens afterwards. -/
theorem seq_dumpData_head (data filename outputDir : String) (fs : FS) :
    ∃ tail, (Seq.dumpData data filename outputDir fs).1 =
      (sprintf "Dumping data to '%s' for debugging...\n\n"
        [sprintf "%s/%s.txt" [filename]]) :: tail := by
  by_cases hdir : fs.dirExists outputDir = true
  · cases ho : fs.openFileCreate (sprintf "%s/%s.txt" [filename]) with
    | none => exact ⟨[], by simp only [Seq.dumpData, hdir, if_true, ho]⟩
    | some fs1 => exact ⟨[], by simp only [Seq.dumpData, hdir, if_true, ho]⟩
  · refine ⟨[sprintf "Failed create output directory '%s': %s\n" [outputDir, oserr]], ?_⟩
    simp only [Seq.dumpData, hdir]
    simp

/-! Claim C8. -/

/-- C8 counterexample: the claim says a record that falls back to dumping
still gets its dump-path line printed; but in the concurrent variant a
decode-failure record is dumped (the .txt exists afterwards) while the
only line printed for it is the parsing-error line — the accumulated
output and the Dumper's returned output string are discarded, so no dump
path (and not even the record's id) reaches the console. -/
theorem C8_counterexample :
    (Conc.base64ToImage testCodec "badb64" "bad1" "./output" fs0).1 =
      ["Parsing error: image: unknown format\n"]
    ∧ (Conc.base64ToImage testCodec "badb64" "bad1" "./output" fs0).2.lookupFile
        "./output/bad1.txt" = some "badb64\n" := by
  decide

/-- C8 amended: every record still produces exactly one console print in the
concurrent variant, and a completed run ends with the summary line; but
for a record whose decode fails that single print is exactly the
parsing-error line, with no dump path in it; the dump-path line is printed
only by the sequential variant, and there with the malformed dump path. -/
theorem C8_amended :
    (∀ (codec : Codec) (data id outDir : String) (fs : FS),
      ∃ s, (Conc.base64ToImage codec data id outDir fs).1 = [s])
    ∧ (∀ (codec : Codec) (data id outDir : String) (fs : FS) (msg : String),
      codec.decode data = .err msg →
      (Conc.base64ToImage codec data id outDir fs).1 = [sprintf "Parsing error: %s\n" [msg]])
    ∧ (∀ (codec : Codec) (data id outDir : String) (fs : FS) (msg : String),
      codec.decode data = .err msg →
      sprintf "Dumping data to '%s' for debugging...\n\n" [sprintf "%s/%s.txt" [id]]
        ∈ (Seq.base64ToImage codec data id outDir fs).1)
    ∧ (∀ (codec : Codec) (rows : List (List String)) (fp outDir : String) (fs : FS)
        (ls : List String) (fs1 : FS),
      Conc.main codec (some rows) fp outDir fs = (ls, .done fs1) →
      ls.getLast? = some (sprintf "\nDone! Check %s for image output.\n" [outDir])) := by
  refine ⟨?_, ?_, ?_, ?_⟩
  · intro codec data id outDir fs
    cases hd : codec.decode data with
    | err msg =>
      rcases hD : Conc.dumpData data id outDir fs with ⟨o, fsd⟩
      exact ⟨sprintf "Parsing error: %s\n" [msg], by simp only [Conc.base64ToImage, hd, hD]⟩
    | ok img format =>
      by_cases hj : format = "jpeg"
      · subst hj
        rcases hE : Conc.encodeToJPEG codec img data id outDir fs with ⟨o3, fs1⟩
        simp only [Conc.base64ToImage, hd]
        rw [if_pos trivial]
        simp only [hE]
        exact ⟨_, rfl⟩
      · by_cases hpn : format = "png"
        · subst hpn
          rcases hE : Conc.encodeToPNG codec img data id outDir fs with ⟨o3, fs1⟩
          simp only [Conc.base64ToImage, hd]
          rw [if_neg (by decide), if_pos trivial]
          simp only [hE]
          exact ⟨_, rfl⟩
        · rcases hD : Conc.dumpData data id outDir fs with ⟨o, fsd⟩
          simp only [Conc.base64ToImage, hd]
          rw [if_neg hj, if_neg hpn]
          simp only [hD]
          exact ⟨_, rfl⟩
  · intro codec data id outDir fs msg hd
    rcases hD : Conc.dumpData data id outDir fs with ⟨o, fsd⟩
    simp only [Conc.base64ToImage, hd, hD]
  · intro codec data id outDir fs msg hd
    rcases hD : Seq.dumpData data id outDir fs with ⟨ls, out⟩
    obtain ⟨tail, htail⟩ := seq_dumpData_head data id outDir fs
    rw [hD] at htail
    simp only [Seq.base64ToImage, hd, hD, htail]
    simp
  · intro codec rows fp outDir fs ls fs1 hmain
    rcases hM : Conc.mainLoop codec outDir none rows fs with ⟨ls2, r⟩
    cases r with
    | done f2 =>
      simp only [Conc.main, hM] at hmain
      rw [Prod.mk.injEq] at hmain
      rw [← hmain.1]
      exact getLast_append_singleton _ _
    | fatalErr f2 =>
      simp only [Conc.main, hM] at hmain
      rw [Prod.mk.injEq] at hmain
      exact absurd hmain.2 (by intro h2; cases h2)
    | panicked f2 =>
      simp only [Conc.main, hM] at hmain
      rw [Prod.mk.injEq] at hmain
      exact absurd hmain.2 (by intro h2; cases h2)

/-- C8 amended witness: the per-record console fact instantiated at a
concrete decode-failing record. -/
theorem C8_amended_witness :
    (Conc.base64ToImage testCodec "badb64" "x1" "./output" fs0).1 =
      [sprintf "Parsing error: %s\n" ["image: unknown format"]] :=
  C8_amended.2.1 testCodec "badb64" "x1" "./output" fs0 "image: unknown format" (by decide)

/-! Claim C9. -/

/-- C9 counterexample: the claim says a mid-write encode failure leaves the
partial image file and also writes the .txt dump for that identifier; in
the sequential variant the dump attempt targets the malformed dump path,
its OpenFile fails and log.Fatalln kills the run: the partial image file
is left behind but no .txt exists anywhere under the output directory. -/
theorem C9_counterexample :
    encFailCodec.decode "PNGDATA" = .ok 2 "png"
    ∧ (Seq.base64ToImage encFailCodec "PNGDATA" "img1" "./output" fsOut).2 =
        .fatal (FS.mk [".", "./output"] [("./output/img1.png", "")] []) := by
  decide

/-- C9 amended: in the concurrent variant a mid-write encode failure (PNG or
JPEG) leaves the partially written image file behind and routes the record
to the Dumper, so the identifier ends the run with both the image file and
the .txt dump; in the sequential variant the same failure aborts the run
through the Dumper's malformed path, leaving the partial image file and no
.txt dump anywhere under the output directory. -/
theorem C9_amended :
    (∀ (codec : Codec) (img : Nat) (data : String),
      codec.decode data = .ok img "png" → codec.pngEncode img = none →
      (Conc.base64ToImage codec data "img1" "./output" fs0).2.lookupFile
          "./output/img1.png" = some ""
      ∧ (Conc.base64ToImage codec data "img1" "./output" fs0).2.lookupFile
          "./output/img1.txt" = some (data ++ "\n"))
    ∧ (∀ (codec : Codec) (img : Nat) (data : String),
      codec.decode data = .ok img "jpeg" → codec.jpegEncode img 100 = none →
      (Conc.base64ToImage codec data "img1" "./output" fs0).2.lookupFile
          "./output/img1.jpeg" = some ""
      ∧ (Conc.base64ToImage codec data "img1" "./output" fs0).2.lookupFile
          "./output/img1.txt" = some (data ++ "\n"))
    ∧ (∀ (codec : Codec) (img : Nat) (data : String),
      codec.decode data = .ok img "png" → codec.pngEncode img = none →
      (Seq.base64ToImage codec data "img1" "./output" fsOut).2 =
        .fatal (FS.mk [".", "./output"] [("./output/img1.png", "")] [])) := by
  have hp : sprintf "%s/%s.png" ["./output", "img1"] = "./output/img1.png" := by decide
  have hj : sprintf "%s/%s.jpeg" ["./output", "img1"] = "./output/img1.jpeg" := by decide
  have ht : sprintf "%s/%s.txt" ["./output", "img1"] = "./output/img1.txt" := by decide
  have htb : sprintf "%s/%s.txt" ["img1"] = "img1/%!s(MISSING).txt" := by decide
  have hm : fs0.mkdirAll "./output" = FS.mk [".", "./output", "."] [] [] := by decide
  have h3 : (FS.mk [".", "./output", "."] [] ([] : List String)).openFileCreate
      "./output/img1.png" =
      some (FS.mk [".", "./output", "."] [("./output/img1.png", "")] []) := by decide
  have h3j : (FS.mk [".", "./output", "."] [] ([] : List String)).openFileCreate
      "./output/img1.jpeg" =
      some (FS.mk [".", "./output", "."] [("./output/img1.jpeg", "")] []) := by decide
  have hm2 : (FS.mk [".", "./output", "."] [("./output/img1.png", "")]
      ([] : List String)).mkdirAll "./output" =
      FS.mk [".", "./output", ".", "./output", "."] [("./output/img1.png", "")] [] := by decide
  have hm2j : (FS.mk [".", "./output", "."] [("./output/img1.jpeg", "")]
      ([] : List String)).mkdirAll "./output" =
      FS.mk [".", "./output", ".", "./output", "."] [("./output/img1.jpeg", "")] [] := by decide
  have h4 : (FS.mk [".", "./output", ".", "./output", "."] [("./output/img1.png", "")]
      ([] : List String)).openFileCreate "./output/img1.txt" =
      some (FS.mk [".", "./output", ".", "./output", "."]
        [("./output/img1.txt", ""), ("./output/img1.png", "")] []) := by decide
  have h4j : (FS.mk [".", "./output", ".", "./output", "."] [("./output/img1.jpeg", "")]
      ([] : List String)).openFileCreate "./output/img1.txt" =
      some (FS.mk [".", "./output", ".", "./output", "."]
        [("./output/img1.txt", ""), ("./output/img1.jpeg", "")] []) := by decide
  have h1s : (if fsOut.dirExists "./output" = true then some fsOut
      else fsOut.mkdir "./output") = some fsOut := by decide
  have h2s : fsOut.openFileCreate "./output/img1.png" =
      some (FS.mk [".", "./output"] [("./output/img1.png", "")] []) := by decide
  have hdir2 : (FS.mk [".", "./output"] [("./output/img1.png", "")]
      ([] : List String)).dirExists "./output" = true := by decide
  have hopen2 : (FS.mk [".", "./output"] [("./output/img1.png", "")]
      ([] : List String)).openFileCreate "img1/%!s(MISSING).txt" = none := by decide
  refine ⟨?_, ?_, ?_⟩
  · intro codec img data hdec henc
    simp only [Conc.base64ToImage, hdec]
    rw [if_neg (by decide), if_pos trivial]
    simp only [Conc.encodeToPNG, hp, hm, h3, henc, Conc.dumpData, ht, hm2, h4]
    constructor <;> simp [FS.writeFile, updateA, overwrite_empty, FS.lookupFile, lookupA]
  · intro codec img data hdec henc
    simp only [Conc.base64ToImage, hdec]
    rw [if_pos trivial]
    simp only [Conc.encodeToJPEG, hj, hm, h3j, henc, Conc.dumpData, ht, hm2j, h4j]
    constructor <;> simp [FS.writeFile, updateA, overwrite_empty, FS.lookupFile, lookupA]
  · intro codec img data hdec henc
    simp only [Seq.base64ToImage, hdec]
    rw [if_neg (by decide)]
    simp only [Seq.encodeToPNG, hp, h1s, h2s, henc, Seq.dumpData, htb, hdir2, if_true, hopen2]

/-- C9 amended witness: the concurrent both-files fact and the sequential
abort fact instantiated at the failing-encoder codec. -/
theorem C9_amended_witness :
    ((Conc.base64ToImage encFailCodec "PNGDATA" "img1" "./output" fs0).2.lookupFile
        "./output/img1.png" = some ""
      ∧ (Conc.base64ToImage encFailCodec "PNGDATA" "img1" "./output" fs0).2.lookupFile
        "./output/img1.txt" = some ("PNGDATA" ++ "\n"))
    ∧ (Seq.base64ToImage encFailCodec "PNGDATA" "img1" "./output" fsOut).2 =
        .fatal (FS.mk [".", "./output"] [("./output/img1.png", "")] []) :=
  ⟨C9_amended.1 encFailCodec 2 "PNGDATA" (by decide) (by decide),
   C9_amended.2.2 encFailCodec 2 "PNGDATA" (by decide) (by decide)⟩

/-- A Boolean contains that is false is exactly non-membership. -/
theorem contains_false_iff (l : List String) (p : String) :
    l.contains p = false ↔ p ∉ l := by
  constructor
  · intro h hm
    have hc : l.contains p = true := by
      rw [List.elem_iff]
      exact hm
    rw [hc] at h
    exact Bool.noConfusion h
  · intro h
    cases hc : l.contains p
    · rfl
    · rw [List.elem_iff] at hc
      exact absurd hc h

/-- What a successful OpenFile guarantees: unchanged directories and fault
set, the preconditions that made it succeed, and the file now present. -/
theorem FS.openFileCreate_inv (fs fsA : FS) (p : String) (h : fs.openFileCreate p = some fsA) :
    fsA.dirs = fs.dirs ∧ fsA.failOpen = fs.failOpen
    ∧ fs.failOpen.contains p = false ∧ fs.dirExists (parentDir p) = true
    ∧ ∃ c, fsA.lookupFile p = some c := by
  unfold FS.openFileCreate at h
  cases hf : fs.failOpen.contains p with
  | true => rw [if_pos hf] at h; cases h
  | false =>
    rw [if_neg (by rw [hf]; simp)] at h
    by_cases hd : fs.dirExists (parentDir p) = true
    · rw [if_pos hd] at h
      cases hl : fs.lookupFile p with
      | some c =>
        rw [hl] at h
        cases h
        exact ⟨rfl, rfl, rfl, hd, c, hl⟩
      | none =>
        rw [hl] at h
        cases h
        exact ⟨rfl, rfl, rfl, hd, "", by simp [FS.lookupFile, lookupA]⟩
    · rw [if_neg hd] at h
      cases h

/-- The write primitive is idempotent: repeating an identical open-and-write
leaves the file system exactly as after the first. -/
theorem writeOut_idem (fs : FS) (p b : String) (fs1 : FS)
    (h : writeOut fs p b = some fs1) : writeOut fs1 p b = some fs1 := by
  unfold writeOut at h ⊢
  cases ho : fs.openFileCreate p with
  | none => rw [ho] at h; cases h
  | some fsA =>
    rw [ho] at h
    simp only [Option.map_some'] at h
    obtain ⟨hdirs, hfail, hcf, hdir, c, hc⟩ := FS.openFileCreate_inv fs fsA p ho
    have h1 : fsA.writeFile p b = fs1 := by injection h
    have hlook1 : fs1.lookupFile p = some (overwrite c b) := by
      rw [← h1, FS.lookupFile_writeFile_self, hc]; rfl
    have hopen1 : fs1.openFileCreate p = some fs1 := by
      apply FS.openFileCreate_existing fs1 p (overwrite c b)
      · rw [show fs1.failOpen = fs.failOpen from by rw [← h1, FS.writeFile_failOpen, hfail]]
        exact (contains_false_iff _ _).mp hcf
      · rw [show fs1.dirExists (parentDir p) = fs.dirExists (parentDir p) from by
          rw [FS.dirExists, FS.dirExists, ← h1, FS.writeFile_dirs, hdirs]]
        exact hdir
      · exact hlook1
    rw [hopen1]
    simp only [Option.map_some']
    rw [FS.writeFile_fix fs1 p b]
    intro c2 hc2
    rw [hlook1] at hc2
    injection hc2 with hc2
    rw [← hc2, overwrite_overwrite]

/-- One-record sequential run, success form: when record processing returns
normally, main emits the import line, the record's lines and the summary
line, and exits normally. -/
theorem seq_main_single_ok (codec : Codec) (fp outDir id data : String) (fs f : FS)
    (ls0 : List String)
    (h : Seq.base64ToImage codec data id outDir fs = (ls0, .ok f)) :
    Seq.main codec (some [[id, data]]) fp outDir fs =
      ([sprintf "Importing file '%s'...\n" [fp]] ++ (ls0 ++ []) ++
        [sprintf "\nDone! Check %s for image output.\n" [outDir]], .done f) := by
  simp only [Seq.main, Seq.mainLoop, fieldsCheck, recAccess, h]
  rw [if_pos trivial]

/-- One-record sequential run, abort form: when record processing reaches
log.Fatalln, main stops with a nonzero exit and no summary line. -/
theorem seq_main_single_fatal (codec : Codec) (fp outDir id data : String) (fs f : FS)
    (ls0 : List String)
    (h : Seq.base64ToImage codec data id outDir fs = (ls0, .fatal f)) :
    Seq.main codec (some [[id, data]]) fp outDir fs =
      ([sprintf "Importing file '%s'...\n" [fp]] ++ ls0, .fatalErr f) := by
  simp only [Seq.main, Seq.mainLoop, fieldsCheck, recAccess, h]
  rw [if_pos trivial]

/-- Re-processing a record of the sequential variant from its own successful
output state changes nothing: the same lines and the same state result. -/
theorem seq_b2i_idem (codec : Codec) (data : String) (ls0 : List String) (f : FS)
    (h : Seq.base64ToImage codec data "img1" "./output" fsOut = (ls0, .ok f)) :
    Seq.base64ToImage codec data "img1" "./output" f = (ls0, .ok f) := by
  have hp : sprintf "%s/%s.png" ["./output", "img1"] = "./output/img1.png" := by decide
  have hjp : sprintf "%s/%s.jpeg" ["./output", "img1"] = "./output/img1.jpeg" := by decide
  have htb : sprintf "%s/%s.txt" ["img1"] = "img1/%!s(MISSING).txt" := by decide
  have hdOut : fsOut.dirExists "./output" = true := by decide
  have hoBad : fsOut.openFileCreate "img1/%!s(MISSING).txt" = none := by decide
  have hpdj : parentDir "./output/img1.jpeg" = "./output" := by decide
  have hpdp : parentDir "./output/img1.png" = "./output" := by decide
  cases hd : codec.decode data with
  | err msg =>
    exfalso
    simp only [Seq.base64ToImage, hd, Seq.dumpData, htb, hdOut, if_true, hoBad] at h
    rw [Prod.mk.injEq] at h
    exact Outcome.noConfusion h.2
  | ok img format =>
    by_cases hj : format = "jpeg"
    · subst hj
      have h2j : fsOut.openFileCreate "./output/img1.jpeg" =
          some (FS.mk [".", "./output"] [("./output/img1.jpeg", "")] []) := by decide
      cases he : codec.jpegEncode img 100 with
      | none =>
        exfalso
        have hd2 : (FS.mk [".", "./output"] [("./output/img1.jpeg", "")]
            ([] : List String)).dirExists "./output" = true := by decide
        have ho2 : (FS.mk [".", "./output"] [("./output/img1.jpeg", "")]
            ([] : List String)).openFileCreate "img1/%!s(MISSING).txt" = none := by decide
        simp only [Seq.base64ToImage, hd] at h
        rw [if_pos trivial] at h
        simp only [Seq.encodeToJPEG, hjp, hdOut, if_true, h2j, he,
          Seq.dumpData, htb, hd2, ho2] at h
        rw [Prod.mk.injEq] at h
        exact Outcome.noConfusion h.2
      | some b =>
        simp only [Seq.base64ToImage, hd] at h ⊢
        rw [if_pos trivial] at h ⊢
        simp only [Seq.encodeToJPEG, hjp, hdOut, if_true, h2j, he] at h
        rw [Prod.mk.injEq] at h
        obtain ⟨hls, hout⟩ := h
        injection hout with hout
        have hw : (FS.mk [".", "./output"] [("./output/img1.jpeg", "")]
            ([] : List String)).writeFile "./output/img1.jpeg" b =
            FS.mk [".", "./output"] [("./output/img1.jpeg", overwrite "" b)] [] := by
          simp [FS.writeFile, updateA]
        rw [hw] at hout
        subst hout
        have hd2 : (FS.mk [".", "./output"] [("./output/img1.jpeg", overwrite "" b)]
            ([] : List String)).dirExists "./output" = true := by
          simp [FS.dirExists, List.elem_iff]
        have hopen2 : (FS.mk [".", "./output"] [("./output/img1.jpeg", overwrite "" b)]
            ([] : List String)).openFileCreate "./output/img1.jpeg" =
            some (FS.mk [".", "./output"] [("./output/img1.jpeg", overwrite "" b)] []) := by
          apply FS.openFileCreate_existing _ _ (overwrite "" b)
          · simp
          · rw [hpdj]; exact hd2
          · simp [FS.lookupFile, lookupA]
        simp only [Seq.encodeToJPEG, hjp, hd2, if_true, hopen2, he]
        rw [← hls]
        simp [FS.writeFile, updateA, overwrite_overwrite]
    · have h2p : fsOut.openFileCreate "./output/img1.png" =
          some (FS.mk [".", "./output"] [("./output/img1.png", "")] []) := by decide
      have h1s : (if fsOut.dirExists "./output" = true then some fsOut
          else fsOut.mkdir "./output") = some fsOut := by decide
      cases he : codec.pngEncode img with
      | none =>
        exfalso
        have hd2 : (FS.mk [".", "./output"] [("./output/img1.png", "")]
            ([] : List String)).dirExists "./output" = true := by decide
        have ho2 : (FS.mk [".", "./output"] [("./output/img1.png", "")]
            ([] : List String)).openFileCreate "img1/%!s(MISSING).txt" = none := by decide
        simp only [Seq.base64ToImage, hd] at h
        rw [if_neg hj] at h
        simp only [Seq.encodeToPNG, hp, h1s, h2p, he,
          Seq.dumpData, htb, hd2, ho2] at h
        rw [Prod.mk.injEq] at h
        exact Outcome.noConfusion h.2
      | some b =>
        simp only [Seq.base64ToImage, hd] at h ⊢
        rw [if_neg hj] at h ⊢
        simp only [Seq.encodeToPNG, hp, h1s, h2p, he] at h
        rw [Prod.mk.injEq] at h
        obtain ⟨hls, hout⟩ := h
        injection hout with hout
        have hw : (FS.mk [".", "./output"] [("./output/img1.png", "")]
            ([] : List String)).writeFile "./output/img1.png" b =
            FS.mk [".", "./output"] [("./output/img1.png", overwrite "" b)] [] := by
          simp [FS.writeFile, updateA]
        rw [hw] at hout
        subst hout
        have hd2 : (FS.mk [".", "./output"] [("./output/img1.png", overwrite "" b)]
            ([] : List String)).dirExists "./output" = true := by
          simp [FS.dirExists, List.elem_iff]
        have h1s2 : (if (FS.mk [".", "./output"] [("./output/img1.png", overwrite "" b)]
              ([] : List String)).dirExists "./output" = true
            then some (FS.mk [".", "./output"] [("./output/img1.png", overwrite "" b)] [])
            else (FS.mk [".", "./output"] [("./output/img1.png", overwrite "" b)]
              ([] : List String)).mkdir "./output") =
            some (FS.mk [".", "./output"] [("./output/img1.png", overwrite "" b)] []) := by
          rw [if_pos hd2]
        have hopen2 : (FS.mk [".", "./output"] [("./output/img1.png", overwrite "" b)]
            ([] : List String)).openFileCreate "./output/img1.png" =
            some (FS.mk [".", "./output"] [("./output/img1.png", overwrite "" b)] []) := by
          apply FS.openFileCreate_existing _ _ (overwrite "" b)
          · simp
          · rw [hpdp]; exact hd2
          · simp [FS.lookupFile, lookupA]
        simp only [Seq.encodeToPNG, hp, h1s2, hopen2, he]
        rw [← hls]
        simp [FS.writeFile, updateA, overwrite_overwrite]

/-- Re-processing a record of the concurrent variant from its own output
state leaves the output files unchanged. -/
theorem conc_b2i_files_idem (codec : Codec) (data : String) :
    ((Conc.base64ToImage codec data "img1" "./output"
        ((Conc.base64ToImage codec data "img1" "./output" fs0).2)).2).files =
      ((Conc.base64ToImage codec data "img1" "./output" fs0).2).files := by
  have hp : sprintf "%s/%s.png" ["./output", "img1"] = "./output/img1.png" := by decide
  have hjp : sprintf "%s/%s.jpeg" ["./output", "img1"] = "./output/img1.jpeg" := by decide
  have ht : sprintf "%s/%s.txt" ["./output", "img1"] = "./output/img1.txt" := by decide
  have hm : fs0.mkdirAll "./output" = FS.mk [".", "./output", "."] [] [] := by decide
  have hpdj : parentDir "./output/img1.jpeg" = "./output" := by decide
  have hpdp : parentDir "./output/img1.png" = "./output" := by decide
  have hpdt : parentDir "./output/img1.txt" = "./output" := by decide
  cases hd : codec.decode data with
  | err msg =>
    have h3t : (FS.mk [".", "./output", "."] [] ([] : List String)).openFileCreate
        "./output/img1.txt" =
        some (FS.mk [".", "./output", "."] [("./output/img1.txt", "")] []) := by decide
    have hm2 : (FS.mk [".", "./output", "."]
        [("./output/img1.txt", overwrite "" (data ++ "\n"))] ([] : List String)).mkdirAll
          "./output" =
        FS.mk [".", "./output", ".", "./output", "."]
          [("./output/img1.txt", overwrite "" (data ++ "\n"))] [] := by
      have ha : ancestorChain "./output" = [".", "./output"] := by decide
      simp [FS.mkdirAll, ha]
    have hwA : (FS.mk [".", "./output", "."] [("./output/img1.txt", "")]
        ([] : List String)).writeFile "./output/img1.txt" (data ++ "\n") =
        FS.mk [".", "./output", "."]
          [("./output/img1.txt", overwrite "" (data ++ "\n"))] [] := by
      simp [FS.writeFile, updateA]
    have hopen2 : (FS.mk [".", "./output", ".", "./output", "."]
        [("./output/img1.txt", overwrite "" (data ++ "\n"))]
        ([] : List String)).openFileCreate "./output/img1.txt" =
        some (FS.mk [".", "./output", ".", "./output", "."]
          [("./output/img1.txt", overwrite "" (data ++ "\n"))] []) := by
      apply FS.openFileCreate_existing _ _ (overwrite "" (data ++ "\n"))
      · simp
      · rw [hpdt]; simp [FS.dirExists, List.elem_iff]
      · simp [FS.lookupFile, lookupA]
    simp only [Conc.base64ToImage, hd, Conc.dumpData, ht, hm, h3t, hwA, hm2, hopen2]
    simp [FS.writeFile, updateA, overwrite_overwrite]
  | ok img format =>
    have ha : ancestorChain "./output" = [".", "./output"] := by decide
    by_cases hj : format = "jpeg"
    · subst hj
      have h3j : (FS.mk [".", "./output", "."] [] ([] : List String)).openFileCreate
          "./output/img1.jpeg" =
          some (FS.mk [".", "./output", "."] [("./output/img1.jpeg", "")] []) := by decide
      cases he : codec.jpegEncode img 100 with
      | some b =>
        have hwB : (FS.mk [".", "./output", "."] [("./output/img1.jpeg", "")]
            ([] : List String)).writeFile "./output/img1.jpeg" b =
            FS.mk [".", "./output", "."] [("./output/img1.jpeg", overwrite "" b)] [] := by
          simp [FS.writeFile, updateA]
        have hmB : (FS.mk [".", "./output", "."] [("./output/img1.jpeg", overwrite "" b)]
            ([] : List String)).mkdirAll "./output" =
            FS.mk [".", "./output", ".", "./output", "."]
              [("./output/img1.jpeg", overwrite "" b)] [] := by
          simp [FS.mkdirAll, ha]
        have hoB : (FS.mk [".", "./output", ".", "./output", "."]
            [("./output/img1.jpeg", overwrite "" b)] ([] : List String)).openFileCreate
              "./output/img1.jpeg" =
            some (FS.mk [".", "./output", ".", "./output", "."]
              [("./output/img1.jpeg", overwrite "" b)] []) := by
          apply FS.openFileCreate_existing _ _ (overwrite "" b)
          · simp
          · rw [hpdj]; simp [FS.dirExists, List.elem_iff]
          · simp [FS.lookupFile, lookupA]
        simp only [Conc.base64ToImage, hd]
        rw [if_pos trivial, if_pos trivial]
        simp only [Conc.encodeToJPEG, hjp, hm, h3j, he, hwB, hmB, hoB]
        simp [FS.writeFile, updateA, overwrite_overwrite]
      | none =>
        have hm2j : (FS.mk [".", "./output", "."] [("./output/img1.jpeg", "")]
            ([] : List String)).mkdirAll "./output" =
            FS.mk [".", "./output", ".", "./output", "."] [("./output/img1.jpeg", "")] [] := by
          simp [FS.mkdirAll, ha]
        have h4j : (FS.mk [".", "./output", ".", "./output", "."] [("./output/img1.jpeg", "")]
            ([] : List String)).openFileCreate "./output/img1.txt" =
            some (FS.mk [".", "./output", ".", "./output", "."]
              [("./output/img1.txt", ""), ("./output/img1.jpeg", "")] []) := by decide
        have hwC : (FS.mk [".", "./output", ".", "./output", "."]
            [("./output/img1.txt", ""), ("./output/img1.jpeg", "")]
            ([] : List String)).writeFile "./output/img1.txt" (data ++ "\n") =
            FS.mk [".", "./output", ".", "./output", "."]
              [("./output/img1.txt", overwrite "" (data ++ "\n")),
               ("./output/img1.jpeg", "")] [] := by
          simp [FS.writeFile, updateA]
        have hmD : (FS.mk [".", "./output", ".", "./output", "."]
            [("./output/img1.txt", overwrite "" (data ++ "\n")), ("./output/img1.jpeg", "")]
            ([] : List String)).mkdirAll "./output" =
            FS.mk [".", "./output", ".", "./output", ".", "./output", "."]
              [("./output/img1.txt", overwrite "" (data ++ "\n")),
               ("./output/img1.jpeg", "")] [] := by
          simp [FS.mkdirAll, ha]
        have hoD : (FS.mk [".", "./output", ".", "./output", ".", "./output", "."]
            [("./output/img1.txt", overwrite "" (data ++ "\n")), ("./output/img1.jpeg", "")]
            ([] : List String)).openFileCreate "./output/img1.jpeg" =
            some (FS.mk [".", "./output", ".", "./output", ".", "./output", "."]
              [("./output/img1.txt", overwrite "" (data ++ "\n")),
               ("./output/img1.jpeg", "")] []) := by
          apply FS.openFileCreate_existing _ _ ""
          · simp
          · rw [hpdj]; simp [FS.dirExists, List.elem_iff]
          · simp [FS.lookupFile, lookupA]
        have hmE : (FS.mk [".", "./output", ".", "./output", ".", "./output", "."]
            [("./output/img1.txt", overwrite "" (data ++ "\n")), ("./output/img1.jpeg", "")]
            ([] : List String)).mkdirAll "./output" =
            FS.mk [".", "./output", ".", "./output", ".", "./output", ".", "./output", "."]
              [("./output/img1.txt", overwrite "" (data ++ "\n")),
               ("./output/img1.jpeg", "")] [] := by
          simp [FS.mkdirAll, ha]
        have hoE : (FS.mk [".", "./output", ".", "./output", ".", "./output", ".",
              "./output", "."]
            [("./output/img1.txt", overwrite "" (data ++ "\n")), ("./output/img1.jpeg", "")]
            ([] : List String)).openFileCreate "./output/img1.txt" =
            some (FS.mk [".", "./output", ".", "./output", ".", "./output", ".",
              "./output", "."]
              [("./output/img1.txt", overwrite "" (data ++ "\n")),
               ("./output/img1.jpeg", "")] []) := by
          apply FS.openFileCreate_existing _ _ (overwrite "" (data ++ "\n"))
          · simp
          · rw [hpdt]; simp [FS.dirExists, List.elem_iff]
          · simp [FS.lookupFile, lookupA]
        simp only [Conc.base64ToImage, hd]
        rw [if_pos trivial, if_pos trivial]
        simp only [Conc.encodeToJPEG, hjp, hm, h3j, he, Conc.dumpData, ht, hm2j, h4j, hwC,
          hmD, hoD, hmE, hoE]
        simp [FS.writeFile, updateA, overwrite_overwrite]
    · by_cases hpn : format = "png"
      · subst hpn
        have h3p : (FS.mk [".", "./output", "."] [] ([] : List String)).openFileCreate
            "./output/img1.png" =
            some (FS.mk [".", "./output", "."] [("./output/img1.png", "")] []) := by decide
        cases he : codec.pngEncode img with
        | some b =>
          have hwB : (FS.mk [".", "./output", "."] [("./output/img1.png", "")]
              ([] : List String)).writeFile "./output/img1.png" b =
              FS.mk [".", "./output", "."] [("./output/img1.png", overwrite "" b)] [] := by
            simp [FS.writeFile, updateA]
          have hmB : (FS.mk [".", "./output", "."] [("./output/img1.png", overwrite "" b)]
              ([] : List String)).mkdirAll "./output" =
              FS.mk [".", "./output", ".", "./output", "."]
                [("./output/img1.png", overwrite "" b)] [] := by
            simp [FS.mkdirAll, ha]
          have hoB : (FS.mk [".", "./output", ".", "./output", "."]
              [("./output/img1.png", overwrite "" b)] ([] : List String)).openFileCreate
                "./output/img1.png" =
              some (FS.mk [".", "./output", ".", "./output", "."]
                [("./output/img1.png", overwrite "" b)] []) := by
            apply FS.openFileCreate_existing _ _ (overwrite "" b)
            · simp
            · rw [hpdp]; simp [FS.dirExists, List.elem_iff]
            · simp [FS.lookupFile, lookupA]
          simp only [Conc.base64ToImage, hd]
          rw [if_pos trivial, if_pos trivial]
          simp only [Conc.encodeToPNG, hp, hm, h3p, he]
          simp [FS.writeFile, updateA, overwrite_overwrite, hwB, hmB, hoB]
        | none =>
          have hm2p : (FS.mk [".", "./output", "."] [("./output/img1.png", "")]
              ([] : List String)).mkdirAll "./output" =
              FS.mk [".", "./output", ".", "./output", "."] [("./output/img1.png", "")] [] := by
            simp [FS.mkdirAll, ha]
          have h4p : (FS.mk [".", "./output", ".", "./output", "."] [("./output/img1.png", "")]
              ([] : List String)).openFileCreate "./output/img1.txt" =
              some (FS.mk [".", "./output", ".", "./output", "."]
                [("./output/img1.txt", ""), ("./output/img1.png", "")] []) := by decide
          have hwC : (FS.mk [".", "./output", ".", "./output", "."]
              [("./output/img1.txt", ""), ("./output/img1.png", "")]
              ([] : List String)).writeFile "./output/img1.txt" (data ++ "\n") =
              FS.mk [".", "./output", ".", "./output", "."]
                [("./output/img1.txt", overwrite "" (data ++ "\n")),
                 ("./output/img1.png", "")] [] := by
            simp [FS.writeFile, updateA]
          have hmD : (FS.mk [".", "./output", ".", "./output", "."]
              [("./output/img1.txt", overwrite "" (data ++ "\n")), ("./output/img1.png", "")]
              ([] : List String)).mkdirAll "./output" =
              FS.mk [".", "./output", ".", "./output", ".", "./output", "."]
                [("./output/img1.txt", overwrite "" (data ++ "\n")),
                 ("./output/img1.png", "")] [] := by
            simp [FS.mkdirAll, ha]
          have hoD : (FS.mk [".", "./output", ".", "./output", ".", "./output", "."]
              [("./output/img1.txt", overwrite "" (data ++ "\n")), ("./output/img1.png", "")]
              ([] : List String)).openFileCreate "./output/img1.png" =
              some (FS.mk [".", "./output", ".", "./output", ".", "./output", "."]
                [("./output/img1.txt", overwrite "" (data ++ "\n")),
                 ("./output/img1.png", "")] []) := by
            apply FS.openFileCreate_existing _ _ ""
            · simp
            · rw [hpdp]; simp [FS.dirExists, List.elem_iff]
            · simp [FS.lookupFile, lookupA]
          have hmE : (FS.mk [".", "./output", ".", "./output", ".", "./output", "."]
              [("./output/img1.txt", overwrite "" (data ++ "\n")), ("./output/img1.png", "")]
              ([] : List String)).mkdirAll "./output" =
              FS.mk [".", "./output", ".", "./output", ".", "./output", ".", "./output", "."]
                [("./output/img1.txt", overwrite "" (data ++ "\n")),
                 ("./output/img1.png", "")] [] := by
            simp [FS.mkdirAll, ha]
          have hoE : (FS.mk [".", "./output", ".", "./output", ".", "./output", ".",
                "./output", "."]
              [("./output/img1.txt", overwrite "" (data ++ "\n")), ("./output/img1.png", "")]
              ([] : List String)).openFileCreate "./output/img1.txt" =
              some (FS.mk [".", "./output", ".", "./output", ".", "./output", ".",
                "./output", "."]
                [("./output/img1.txt", overwrite "" (data ++ "\n")),
                 ("./output/img1.png", "")] []) := by
            apply FS.openFileCreate_existing _ _ (overwrite "" (data ++ "\n"))
            · simp
            · rw [hpdt]; simp [FS.dirExists, List.elem_iff]
            · simp [FS.lookupFile, lookupA]
          simp only [Conc.base64ToImage, hd]
          rw [if_pos trivial, if_pos trivial]
          simp only [Conc.encodeToPNG, hp, hm, h3p, he, Conc.dumpData, ht]
          simp [FS.writeFile, updateA, overwrite_overwrite, hm2p, h4p, hwC, hmD, hoD, hmE, hoE]
      · have h3t : (FS.mk [".", "./output", "."] [] ([] : List String)).openFileCreate
            "./output/img1.txt" =
            some (FS.mk [".", "./output", "."] [("./output/img1.txt", "")] []) := by decide
        have hwA : (FS.mk [".", "./output", "."] [("./output/img1.txt", "")]
            ([] : List String)).writeFile "./output/img1.txt" (data ++ "\n") =
            FS.mk [".", "./output", "."]
              [("./output/img1.txt", overwrite "" (data ++ "\n"))] [] := by
          simp [FS.writeFile, updateA]
        have hm2 : (FS.mk [".", "./output", "."]
            [("./output/img1.txt", overwrite "" (data ++ "\n"))] ([] : List String)).mkdirAll
              "./output" =
            FS.mk [".", "./output", ".", "./output", "."]
              [("./output/img1.txt", overwrite "" (data ++ "\n"))] [] := by
          simp [FS.mkdirAll, ha]
        have hopen2 : (FS.mk [".", "./output", ".", "./output", "."]
            [("./output/img1.txt", overwrite "" (data ++ "\n"))]
            ([] : List String)).openFileCreate "./output/img1.txt" =
            some (FS.mk [".", "./output", ".", "./output", "."]
              [("./output/img1.txt", overwrite "" (data ++ "\n"))] []) := by
          apply FS.openFileCreate_existing _ _ (overwrite "" (data ++ "\n"))
          · simp
          · rw [hpdt]; simp [FS.dirExists, List.elem_iff]
          · simp [FS.lookupFile, lookupA]
        simp only [Conc.base64ToImage, hd]
        rw [if_neg hj, if_neg hj, if_neg hpn, if_neg hpn]
        simp only [Conc.dumpData, ht, hm, h3t, hwA, hm2, hopen2]
        simp [FS.writeFile, updateA, overwrite_overwrite]

/-! Claim C7. -/

/-- C7: re-running the program overwrites output files in place rather than
appending or corrupting them.  Every output site opens with
O_WRONLY|O_CREATE and writes from offset zero, and that write is
idempotent: repeating it leaves the file system exactly as after the
first write, both for the raw write primitive and for whole record
pipelines — a one-record sequential run repeated from its own final state
reproduces the identical console and file state, and repeating a
concurrent record's pipeline from its own output state leaves the output
files byte-identical. -/
theorem C7_theorem :
    (∀ (fs : FS) (p b : String) (fs1 : FS),
      writeOut fs p b = some fs1 → writeOut fs1 p b = some fs1)
    ∧ (∀ c b : String, overwrite (overwrite c b) b = overwrite c b)
    ∧ (∀ (codec : Codec) (data fp : String) (ls : List String) (fs1 : FS),
      Seq.main codec (some [["img1", data]]) fp "./output" fsOut = (ls, .done fs1) →
      Seq.main codec (some [["img1", data]]) fp "./output" fs1 = (ls, .done fs1))
    ∧ (∀ (codec : Codec) (data : String),
      ((Conc.base64ToImage codec data "img1" "./output"
          ((Conc.base64ToImage codec data "img1" "./output" fs0).2)).2).files =
        ((Conc.base64ToImage codec data "img1" "./output" fs0).2).files) := by
  refine ⟨writeOut_idem, overwrite_overwrite, ?_, conc_b2i_files_idem⟩
  intro codec data fp ls fs1 h
  rcases hB : Seq.base64ToImage codec data "img1" "./output" fsOut with ⟨ls0, out⟩
  cases out with
  | fatal f =>
    rw [seq_main_single_fatal codec fp "./output" "img1" data fsOut f ls0 hB] at h
    rw [Prod.mk.injEq] at h
    exact absurd h.2 (fun hx => RunResult.noConfusion hx)
  | ok f =>
    rw [seq_main_single_ok codec fp "./output" "img1" data fsOut f ls0 hB] at h
    rw [Prod.mk.injEq] at h
    obtain ⟨hls, hdone⟩ := h
    injection hdone with hf
    subst hf
    have hB2 := seq_b2i_idem codec data ls0 f hB
    rw [seq_main_single_ok codec fp "./output" "img1" data f f ls0 hB2, ← hls]

/-- C7 witness: a concrete PNG record run once from a clean output directory
and then again from the resulting state gives the identical console lines
and the identical output files. -/
theorem C7_theorem_witness :
    Seq.main testCodec (some [["img1", "PNGDATA"]]) "t.csv" "./output"
        (FS.mk [".", "./output"] [("./output/img1.png", "PNGBYTES2")] []) =
      (["Importing file 't.csv'...\n", "Attempting to decode data with ID: img1...\n",
        "Format: png\n", "Writing to './output/img1.png'...\n",
        "Created './output/img1.png'\n", "\nDone! Check ./output for image output.\n"],
       .done (FS.mk [".", "./output"] [("./output/img1.png", "PNGBYTES2")] [])) :=
  C7_theorem.2.2.1 testCodec "PNGDATA" "t.csv"
    ["Importing file 't.csv'...\n", "Attempting to decode data with ID: img1...\n",
     "Format: png\n", "Writing to './output/img1.png'...\n",
     "Created './output/img1.png'\n", "\nDone! Check ./output for image output.\n"]
    (FS.mk [".", "./output"] [("./output/img1.png", "PNGBYTES2")] []) (by decide)

/-! Claim C10. -/

/-- C10: the claim says record index accesses in the driver loop are always
in bounds for records the reader yields without error; but a file whose
only row has a single field is read without error (the expected count is
fixed at one by that row), and the access to index 1 is then out of
bounds: all three variants panic. -/
theorem C10_theorem :
    csvReadAll none [["onlyid"]] = .ok [["onlyid"]]
    ∧ (Seq.main testCodec (some [["onlyid"]]) "t.csv" "./output" fsOut).2 = .panicked fsOut
    ∧ (Conc.main testCodec (some [["onlyid"]]) "t.csv" "./output" fsOut).2 = .panicked fsOut
    ∧ Legacy.main testCodec (some [["onlyid"]]) fsOut = .panicked fsOut :=
  ⟨rfl, by decide, by decide, by decide⟩

end CsvImage
